import Mathlib

/-
Verification of the feathers-sequelize CRUD adapter (src/index.js).

The adapter holds one Sequelize model, a configured id field name, a raw
flag and pagination defaults, and exposes find/get/create/patch/update/
remove.  We embed the adapter shallowly: records are association lists of
field names to values, the database backing the Sequelize model is a list
of records, and each service method is a pure function from the database
and its arguments to a result (and, for mutations, the new database).
Rejected promises become `Except.error`; the asynchronous plumbing carries
no other observable behaviour for a single call against a fixed database.

External collaborators are modelled from their contracts as used by the
adapter: feathers-query-filters (`filter`) splits the control keys
($limit/$skip/$select) from the field conditions and applies pagination
limits; feathers-commons (`select`) picks the $select fields plus the id
field; the Sequelize model executes where/limit/offset/attributes queries
against the table.  $sort/ordering is outside the modelled fragment: no
claim concerns ordering, and rows keep table order throughout.
-/

set_option autoImplicit false
set_option maxRecDepth 10000
set_option linter.unusedVariables false

deriving instance DecidableEq for Except

namespace FeathersSequelize

/-- Field values stored in records (a JSON-ish fragment; `vnull` is SQL/JS
null). -/
inductive Value where
  | vnull
  | vint (n : Int)
  | vstr (s : String)
deriving DecidableEq

/-- A record is a JS object: an association list from field names to
values.  Lookup takes the first binding, as property access does. -/
abbrev Record := List (String × Value)

/-- The table backing the Sequelize model. -/
abbrev DB := List Record

/-- Property read `r[k]`. -/
def getField (r : Record) (k : String) : Option Value :=
  (r.find? (fun kv => decide (kv.1 = k))).map Prod.snd

/-- Property write `r[k] = v`: replaces an existing binding in place, else
appends. -/
def setField : Record → String → Value → Record
  | [], k, v => [(k, v)]
  | kv :: t, k, v => if kv.1 = k then (k, v) :: t else kv :: setField t k v

/-- lodash `omit(data, key)`: drop every binding of the key. -/
def omitKey (r : Record) (k : String) : Record :=
  r.filter (fun kv => decide (kv.1 ≠ k))

/-- Apply a set of field assignments to a record (the SET part of a
Sequelize UPDATE, and `instance.update(values)`). -/
def applyValues (vals : Record) (r : Record) : Record :=
  vals.foldl (fun acc kv => setField acc kv.1 kv.2) r

/-- A field condition of a parsed query: plain equality or the `$in`
operator (the operators the adapter's own logic manipulates). -/
inductive Cond where
  | eqv (v : Value)
  | isIn (vs : List Value)
deriving DecidableEq

/-- A where object: an association list from field names to conditions. -/
abbrev Where := List (String × Cond)

/-- SQL condition satisfaction for one field. -/
def condMatches (r : Record) (k : String) : Cond → Bool
  | .eqv v => decide (getField r k = some v)
  | .isIn vs =>
    match getField r k with
    | some v => decide (v ∈ vs)
    | none => false

/-- A record satisfies a where object when it satisfies every binding. -/
def matchesWhere (w : Where) (r : Record) : Bool :=
  w.all (fun kc => condMatches r kc.1 kc.2)

/-- JS object write `w[k] = c` on a where object: replaces the binding for
`k` in place when present, else appends it. -/
def setCond : Where → String → Cond → Where
  | [], k, c => [(k, c)]
  | kc :: t, k, c => if kc.1 = k then (k, c) :: t else kc :: setCond t k c

/-- `Object.assign(base, over)`: every binding of `over` replaces or
extends `base`. -/
def mergeWhere (base over : Where) : Where :=
  over.foldl (fun acc kc => setCond acc kc.1 kc.2) base

/-- A parsed feathers query: the control keys `$limit`, `$skip`, `$select`
plus the field conditions.  (`$sort` is outside the modelled fragment.) -/
structure Query where
  limit : Option Nat := none
  skip : Option Nat := none
  select : Option (List String) := none
  conds : Where := []
deriving DecidableEq

/-- Pagination configuration `{default, max}`. -/
structure Paginate where
  default : Option Nat := none
  max : Option Nat := none
deriving DecidableEq

/-- JS truthiness of `paginate.default` (absent and `0` are falsy), the
test both feathers-query-filters and `find` perform. -/
def Paginate.hasDefault (p : Paginate) : Bool :=
  match p.default with
  | some d => decide (d ≠ 0)
  | none => false

/-- feathers-query-filters `getLimit`: under a truthy pagination default,
the effective `$limit` is the requested one (or the default) capped by
`paginate.max`. -/
def getLimit (lim : Option Nat) (pag : Option Paginate) : Option Nat :=
  match pag with
  | some p =>
    if p.hasDefault then
      let lower := lim.getD (p.default.getD 0)
      some (match p.max with
            | some m => min lower m
            | none => lower)
    else lim
  | none => lim

/-- Modelled from the spec: `utils.getWhere` (src/utils.js is not among
the given sources) translates the parsed field conditions of a query into
the ORM where options; modelled as extracting the condition list (the
control keys are not field conditions). -/
def getWhere (q : Query) : Where := q.conds

/-- ORM query options built by the adapter. -/
structure QueryOpts where
  whereC : Where := []
  limit : Option Nat := none
  offset : Option Nat := none
  attributes : Option (List String) := none

/-- Keep only the listed fields of a record (SQL attribute projection and
lodash pick). -/
def pick (keys : List String) (r : Record) : Record :=
  r.filter (fun kv => decide (kv.1 ∈ keys))

namespace Model

/-- `Model.findAll`: where, then offset, then limit, then attribute
projection, in table order. -/
def findAll (db : DB) (q : QueryOpts) : List Record :=
  let m := db.filter (matchesWhere q.whereC)
  let afterSkip := m.drop (q.offset.getD 0)
  let rows :=
    match q.limit with
    | some l => afterSkip.take l
    | none => afterSkip
  match q.attributes with
  | some attrs => rows.map (pick attrs)
  | none => rows

/-- `Model.findAndCount`: the count honours the where but not
limit/offset; the rows honour everything. -/
def findAndCount (db : DB) (q : QueryOpts) : Nat × List Record :=
  (db.countP (matchesWhere q.whereC), findAll db q)

/-- `Model.findById`: first row whose primary-key field holds the id. -/
def findById (db : DB) (pk : String) (i : Value) : Option Record :=
  db.find? (fun r => decide (getField r pk = some i))

/-- `Model.update(values, {where})`: set the values on every matching row;
also yields the affected rows as re-read after the update, which is what a
postgres `RETURNING` update hands back. -/
def update (db : DB) (vals : Record) (w : Where) : DB × List Record :=
  (db.map (fun r => if matchesWhere w r then applyValues vals r else r),
   (db.filter (matchesWhere w)).map (applyValues vals))

/-- `Model.destroy({where})`: drop every matching row. -/
def destroy (db : DB) (w : Where) : DB :=
  db.filter (fun r => !matchesWhere w r)

end Model

/-- feathers-commons `select(params, idField)`: when the query carries
`$select`, keep those fields plus the id field; otherwise the identity. -/
def selectFields (q : Query) (idField : String) (r : Record) : Record :=
  match q.select with
  | some sel => pick (sel ++ [idField]) r
  | none => r

/-- The service-call parameters the adapter reads: the parsed query, the
`params.sequelize` passthrough (of which the adapter's own logic inspects
`include` and `raw`), the `$returning` flag, and a `paginate` override. -/
structure Params where
  query : Query := {}
  seqInclude : Bool := false
  seqRaw : Option Bool := none
  returning : Option Bool := none
  paginate : Option Paginate := none
deriving DecidableEq

/-- The adapter's fixed configuration: `options.id || 'id'`,
`options.raw !== false`, `options.paginate || {}`, and the dialect read
from `Model.sequelize.options.dialect`.  The model's primary key is taken
to coincide with the configured id field, the intended configuration. -/
structure Service where
  id : String := "id"
  raw : Bool := true
  paginate : Paginate := {}
  dialect : String := "sqlite"
deriving DecidableEq

/-- The feathers error taxonomy the adapter raises itself. -/
inductive Err where
  | notFound
  | badRequest
deriving DecidableEq

/-- A `find` page object. -/
structure Page where
  total : Nat
  limit : Option Nat
  skip : Nat
  data : List Record
deriving DecidableEq

/-- A resolved service result: a single record, a bare array, or a page. -/
inductive Res where
  | one (r : Record)
  | many (rs : List Record)
  | page (p : Page)
deriving DecidableEq

/-- `create`/`update` data argument: a single record or an array. -/
inductive Data where
  | one (r : Record)
  | many (rs : List Record)
deriving DecidableEq

/-- Apply a record transformation to every record of a result (how
feathers-commons `select` acts on each result shape). -/
def mapRes (f : Record → Record) : Res → Res
  | .one r => .one (f r)
  | .many rs => .many (rs.map f)
  | .page pg => .page { pg with data := pg.data.map f }

namespace Service

/-- `Service._find(params, getFilter)`: split the query, build the ORM
options, run `findAndCount` and shape the page.  `pag = none` is the plain
`filter` call (no pagination applied); `some p` is `where => filter(where,
paginate)`. -/
def _find (svc : Service) (db : DB) (p : Params) (pag : Option Paginate) : Page :=
  let lim := getLimit p.query.limit pag
  let q : QueryOpts :=
    { whereC := getWhere p.query
      limit := lim
      offset := p.query.skip
      attributes := p.query.select }
  let res := Model.findAndCount db q
  { total := res.1, limit := lim, skip := p.query.skip.getD 0, data := res.2 }

/-- `Service.find(params)`: pagination comes from `params.paginate` when
given, else the configured default; without a truthy `paginate.default`
only the page data is returned. -/
def find (svc : Service) (db : DB) (p : Params) : Res :=
  let pag := p.paginate.getD svc.paginate
  let page := svc._find db p (some pag)
  if pag.hasDefault then .page page else .many page.data

/-- `Service._get(id, params)`: with eager-loading (`params.sequelize.
include`) fall back to `findAll` under `Object.assign({id: id}, where)` --
the literal field name `id` -- else `findById`; `NotFound` when absent;
then feathers-commons select. -/
def _get (svc : Service) (db : DB) (i : Value) (p : Params) : Except Err Record :=
  let found : Except Err Record :=
    if p.seqInclude then
      let w := mergeWhere [("id", Cond.eqv i)] (getWhere p.query)
      match Model.findAll db { whereC := w } with
      | [] => .error .notFound
      | r :: _ => .ok r
    else
      match Model.findById db svc.id i with
      | none => .error .notFound
      | some r => .ok r
  found.map (selectFields p.query svc.id)

/-- `Service.get(id, params)`: `_get` and a second select. -/
def get (svc : Service) (db : DB) (i : Value) (p : Params) : Except Err Record :=
  (svc._get db i p).map (selectFields p.query svc.id)

/-- `Service._getOrFind(id, params)`: all unpaginated items when `id` is
null, else the single record. -/
def _getOrFind (svc : Service) (db : DB) (i : Option Value) (p : Params) :
    Except Err Res :=
  match i with
  | none => .ok (.many (svc._find db p none).data)
  | some v => (svc._get db v p).map .one

/-- `Service.create(data, params)`: `bulkCreate` for arrays, `create`
otherwise; with `options.raw === false` the instances are returned as-is,
else each inserted record is passed through select. -/
def create (svc : Service) (db : DB) (d : Data) (p : Params) : Res × DB :=
  let rawOpt := p.seqRaw.getD svc.raw
  match d with
  | .many rs =>
    let db2 := db ++ rs
    if rawOpt = false then (.many rs, db2)
    else (.many (rs.map (selectFields p.query svc.id)), db2)
  | .one r =>
    let db2 := db ++ [r]
    if rawOpt = false then (.one r, db2)
    else (.one (selectFields p.query svc.id r), db2)

/-- The where object of `patch`/`remove`: the filtered query conditions,
with `where[this.id] = id` assigned for a non-null id. -/
def patchWhere (svc : Service) (i : Option Value) (p : Params) : Where :=
  match i with
  | some v => setCond (getWhere p.query) svc.id (.eqv v)
  | none => getWhere p.query

/-- The postgres strategy of `patch`: one UPDATE with `returning: true`,
reading the affected rows from the update result; `NotFound` for a
single-target patch that affected no row. -/
def patchReturning (svc : Service) (db : DB) (i : Option Value) (data : Record)
    (p : Params) : Except Err (Res × DB) :=
  let res := Model.update db (omitKey data svc.id) (svc.patchWhere i p)
  match i with
  | none => .ok (.many (res.2.map (selectFields p.query svc.id)), res.1)
  | some _ =>
    match res.2 with
    | [] => .error .notFound
    | r :: _ => .ok (.one (selectFields p.query svc.id r), res.1)

/-- The generic strategy of `patch`: resolve the affected ids first, run
the UPDATE, then (unless `$returning === false`) re-read those ids through
`_getOrFind`. -/
def patchGeneric (svc : Service) (db : DB) (i : Option Value) (data : Record)
    (p : Params) : Except Err (Res × DB) :=
  let idList : List Value :=
    match i with
    | none => (svc._find db p none).data.map
        (fun r => (getField r svc.id).getD .vnull)
    | some v => [v]
  let findP : Params := { p with query := { conds := [(svc.id, Cond.isIn idList)] } }
  let db2 := (Model.update db (omitKey data svc.id) (svc.patchWhere i p)).1
  if p.returning ≠ some false then
    match svc._getOrFind db2 i findP with
    | .error e => .error e
    | .ok res => .ok (mapRes (selectFields p.query svc.id) res, db2)
  else
    .ok (.many [], db2)

/-- `Service.patch(id, data, params)`: the postgres strategy when the
dialect is postgres and `$returning` is not false, else the generic
strategy. -/
def patch (svc : Service) (db : DB) (i : Option Value) (data : Record)
    (p : Params) : Except Err (Res × DB) :=
  if svc.dialect = "postgres" ∧ p.returning ≠ some false then
    svc.patchReturning db i data p
  else
    svc.patchGeneric db i data p

/-- `Service.update(id, data, params)`: `BadRequest` for arrays; else
fetch the instance (`NotFound` when absent), build `copy` over the keys of
the existing record -- `data`'s value when defined, null otherwise -- and
persist it on the instance's row. -/
def update (svc : Service) (db : DB) (i : Value) (d : Data) (p : Params) :
    Except Err (Res × DB) :=
  match d with
  | .many _ => .error .badRequest
  | .one data =>
    match Model.findById db svc.id i with
    | none => .error .notFound
    | some inst =>
      let copy : Record :=
        inst.map (fun kv => (kv.1, (getField data kv.1).getD .vnull))
      let db2 := db.map (fun r =>
        if getField r svc.id = some i then applyValues copy r else r)
      .ok (.one (selectFields p.query svc.id (applyValues copy inst)), db2)

/-- `Service.remove(id, params)`: build the where as `patch` does; when
`$returning` is not false, read the record(s) through `_getOrFind` first
(rejecting there surfaces `NotFound`), destroy, and resolve with the
pre-deletion data under select; with `$returning === false`, destroy and
resolve with an empty array. -/
def remove (svc : Service) (db : DB) (i : Option Value) (p : Params) :
    Except Err (Res × DB) :=
  let w := svc.patchWhere i p
  if p.returning ≠ some false then
    match svc._getOrFind db i p with
    | .error e => .error e
    | .ok res => .ok (mapRes (selectFields p.query svc.id) res, Model.destroy db w)
  else
    .ok (.many [], Model.destroy db w)

end Service

/-! ### Basic lemmas about records and where objects -/

theorem getField_nil (k : String) : getField [] k = none := rfl

theorem getField_cons (kv : String × Value) (t : Record) (k : String) :
    getField (kv :: t) k = if kv.1 = k then some kv.2 else getField t k := by
  by_cases h : kv.1 = k <;> simp [getField, List.find?_cons, h]

theorem getField_setField_self (r : Record) (k : String) (v : Value) :
    getField (setField r k v) k = some v := by
  induction r with
  | nil => simp [setField, getField_cons]
  | cons kv t ih =>
    by_cases h : kv.1 = k
    · simp [setField, h, getField_cons]
    · simp [setField, h, getField_cons, ih]

theorem getField_setField_other (r : Record) (k k' : String) (v : Value)
    (h : k' ≠ k) : getField (setField r k v) k' = getField r k' := by
  induction r with
  | nil => simp [setField, getField_cons, getField_nil, Ne.symm h]
  | cons kv t ih =>
    by_cases hk : kv.1 = k
    · simp [setField, hk, getField_cons, Ne.symm h]
    · simp [setField, hk, getField_cons, ih]

theorem applyValues_nil (r : Record) : applyValues [] r = r := rfl

theorem applyValues_cons (kv : String × Value) (vals : Record) (r : Record) :
    applyValues (kv :: vals) r = applyValues vals (setField r kv.1 kv.2) := rfl

theorem getField_applyValues_not_mem (vals : Record) (r : Record) (k : String)
    (h : ∀ kv ∈ vals, kv.1 ≠ k) :
    getField (applyValues vals r) k = getField r k := by
  induction vals generalizing r with
  | nil => rfl
  | cons kv t ih =>
    rw [applyValues_cons, ih _ (fun kv' hkv => h kv' (List.mem_cons_of_mem _ hkv))]
    exact getField_setField_other r kv.1 k kv.2
      (Ne.symm (h kv (List.mem_cons_self kv t)))

theorem omitKey_key_ne (data : Record) (k : String) :
    ∀ kv ∈ omitKey data k, kv.1 ≠ k := by
  intro kv hkv
  have := (List.mem_filter.mp hkv).2
  simpa using this

theorem getField_applyValues_omitKey (data r : Record) (k : String) :
    getField (applyValues (omitKey data k) r) k = getField r k :=
  getField_applyValues_not_mem _ _ _ (omitKey_key_ne data k)

theorem applyValues_mapped (l : List (String × Value)) (g : String → Value)
    (r : Record) (k : String) :
    getField (applyValues (l.map (fun kv => (kv.1, g kv.1))) r) k =
      if l.any (fun kv => decide (kv.1 = k)) then some (g k) else getField r k := by
  induction l generalizing r with
  | nil => simp [applyValues_nil]
  | cons kv t ih =>
    rw [List.map_cons, applyValues_cons, ih]
    by_cases ht : t.any (fun kv => decide (kv.1 = k))
    · simp [ht, List.any_cons]
    · by_cases hk : kv.1 = k
      · subst hk
        simp [ht, List.any_cons, getField_setField_self]
      · simp [ht, List.any_cons, hk, getField_setField_other r kv.1 k _ (Ne.symm hk)]

theorem setCond_mem (w : Where) (k : String) (c : Cond) : (k, c) ∈ setCond w k c := by
  induction w with
  | nil => simp [setCond]
  | cons kc t ih =>
    by_cases h : kc.1 = k
    · simp [setCond, h]
    · simp [setCond, h]
      right
      exact ih

theorem matchesWhere_setCond_elim (w : Where) (k : String) (c : Cond) (r : Record)
    (h : matchesWhere (setCond w k c) r = true) : condMatches r k c = true := by
  have := List.all_eq_true.mp h (k, c) (setCond_mem w k c)
  simpa using this

theorem matchesWhere_singleton (k : String) (c : Cond) (r : Record) :
    matchesWhere [(k, c)] r = condMatches r k c := by
  simp [matchesWhere]

theorem filter_comm_map {α : Type} (f : α → α) (P : α → Bool) (l : List α) :
    (l.map f).filter P = (l.filter (fun a => P (f a))).map f := by
  induction l with
  | nil => rfl
  | cons a t ih =>
    by_cases h : P (f a) <;> simp [List.filter_cons, h, ih]

theorem selectFields_none (q : Query) (idF : String) (r : Record)
    (h : q.select = none) : selectFields q idF r = r := by
  simp [selectFields, h]

theorem map_selectFields_none (q : Query) (idF : String) (rs : List Record)
    (h : q.select = none) : rs.map (selectFields q idF) = rs :=
  calc rs.map (selectFields q idF)
      = rs.map id := List.map_congr_left (fun r _ => selectFields_none q idF r h)
    _ = rs := List.map_id rs

theorem mapRes_id_of_select_none (q : Query) (idF : String) (res : Res)
    (h : q.select = none) : mapRes (selectFields q idF) res = res := by
  cases res with
  | one r => simp [mapRes, selectFields_none _ _ _ h]
  | many rs => simp [mapRes, map_selectFields_none _ _ _ h]
  | page pg => simp [mapRes, map_selectFields_none _ _ _ h]

theorem findAll_length_le (db : DB) (q : QueryOpts) (l : Nat)
    (h : q.limit = some l) : (Model.findAll db q).length ≤ l := by
  unfold Model.findAll
  rw [h]
  cases q.attributes with
  | none => exact List.length_take_le _ _
  | some attrs => simp [List.length_take_le]

theorem patchWhere_some_elim (svc : Service) (p : Params) (i : Value) (r : Record)
    (h : matchesWhere (svc.patchWhere (some i) p) r = true) :
    getField r svc.id = some i := by
  have h' : matchesWhere (setCond (getWhere p.query) svc.id (.eqv i)) r = true := h
  have hc := matchesWhere_setCond_elim (getWhere p.query) svc.id (.eqv i) r h'
  simpa [condMatches] using hc

/-- Requery correctness for the generic patch strategy: with present and
injective id values, re-reading by the pre-update ids from the updated
table yields exactly the updated images of the originally matching rows
(the patch values never touch the id field). -/
theorem requery_filter (idF : String) (wB : Record → Bool) (vals : Record) (db : DB)
    (hvals : ∀ kv ∈ vals, kv.1 ≠ idF)
    (hids : ∀ r ∈ db, (getField r idF).isSome = true)
    (hinj : ∀ r ∈ db, ∀ s ∈ db, getField r idF = getField s idF → r = s) :
    ((db.map (fun r => if wB r then applyValues vals r else r)).filter
      (matchesWhere [(idF, Cond.isIn
        ((db.filter wB).map (fun r => (getField r idF).getD Value.vnull)))]))
      = (db.filter wB).map (applyValues vals) := by
  rw [filter_comm_map]
  have hstep : ∀ r ∈ db,
      matchesWhere [(idF, Cond.isIn
        ((db.filter wB).map (fun r => (getField r idF).getD Value.vnull)))]
        (if wB r then applyValues vals r else r)
      = wB r := by
    intro r hr
    rw [matchesWhere_singleton]
    have hpres : getField (if wB r then applyValues vals r else r) idF
        = getField r idF := by
      by_cases hw : wB r
      · simp [hw, getField_applyValues_not_mem vals r idF hvals]
      · simp [hw]
    obtain ⟨v, hv⟩ := Option.isSome_iff_exists.mp (hids r hr)
    rw [show condMatches (if wB r then applyValues vals r else r) idF
        (Cond.isIn ((db.filter wB).map (fun r => (getField r idF).getD Value.vnull)))
      = decide (v ∈ (db.filter wB).map (fun r => (getField r idF).getD Value.vnull))
      from by simp [condMatches, hpres, hv]]
    cases hw : wB r with
    | true =>
      apply decide_eq_true
      refine List.mem_map.mpr ⟨r, List.mem_filter.mpr ⟨hr, hw⟩, ?_⟩
      rw [hv]
      rfl
    | false =>
      apply decide_eq_false
      intro hmem
      obtain ⟨s, hs, hsv⟩ := List.mem_map.mp hmem
      have hsdb := (List.mem_filter.mp hs).1
      have hsw := (List.mem_filter.mp hs).2
      obtain ⟨vs, hvs⟩ := Option.isSome_iff_exists.mp (hids s hsdb)
      rw [hvs] at hsv
      have hss : getField s idF = getField r idF := by
        rw [hvs, hv]
        exact congrArg some hsv
      have hsr : s = r := hinj s hsdb r hr hss
      rw [hsr, hw] at hsw
      exact Bool.false_ne_true hsw
  rw [List.filter_congr hstep]
  exact List.map_congr_left (fun r hr => by rw [if_pos (List.mem_filter.mp hr).2])

/-- `_find` under a plain filter call and a conditions-only query reads
exactly the rows matching the conditions. -/
theorem _find_conds_data (svc : Service) (db : DB) (p : Params) (cs : Where) :
    (svc._find db { p with query := { conds := cs } } none).data
      = db.filter (matchesWhere cs) := by
  simp [Service._find, getLimit, Model.findAndCount, Model.findAll, getWhere]

/-- `_find` under a plain filter call on a control-key-free query reads
exactly the rows matching the query conditions. -/
theorem _find_plain_data (svc : Service) (db : DB) (p : Params)
    (hl : p.query.limit = none) (hs : p.query.skip = none)
    (hsel : p.query.select = none) :
    (svc._find db p none).data = db.filter (matchesWhere (getWhere p.query)) := by
  simp [Service._find, hl, hs, hsel, getLimit, Model.findAndCount, Model.findAll]

/-- The generic patch strategy at `id === null`, in canonical form: every
row matching the filter is updated with the id-stripped data, and exactly
the updated matching rows are resolved. -/
theorem patchGeneric_null_canonical (svc : Service) (db : DB) (data : Record)
    (p : Params) (hret : p.returning ≠ some false)
    (hl : p.query.limit = none) (hs : p.query.skip = none)
    (hsel : p.query.select = none)
    (hids : ∀ r ∈ db, (getField r svc.id).isSome = true)
    (hinj : ∀ r ∈ db, ∀ s ∈ db,
      getField r svc.id = getField s svc.id → r = s) :
    svc.patchGeneric db none data p =
      .ok (.many ((db.filter (matchesWhere (getWhere p.query))).map
            (applyValues (omitKey data svc.id))),
           db.map (fun r => if matchesWhere (getWhere p.query) r
             then applyValues (omitKey data svc.id) r else r)) := by
  have hdata := _find_plain_data svc db p hl hs hsel
  have hgof : svc._getOrFind
      (Model.update db (omitKey data svc.id) (svc.patchWhere none p)).1 none
      { p with query := { conds := [(svc.id, Cond.isIn ((svc._find db p none).data.map
          (fun r => (getField r svc.id).getD Value.vnull)))] } }
      = .ok (.many ((db.filter (matchesWhere (getWhere p.query))).map
          (applyValues (omitKey data svc.id)))) := by
    show Except.ok (Res.many ((svc._find
        (Model.update db (omitKey data svc.id) (svc.patchWhere none p)).1
        { p with query := { conds := [(svc.id, Cond.isIn ((svc._find db p none).data.map
            (fun r => (getField r svc.id).getD Value.vnull)))] } } none).data)) = _
    rw [_find_conds_data, hdata]
    rw [show (svc.patchWhere none p) = getWhere p.query from rfl]
    rw [show (Model.update db (omitKey data svc.id) (getWhere p.query)).1
        = db.map (fun r => if matchesWhere (getWhere p.query) r
            then applyValues (omitKey data svc.id) r else r) from rfl]
    rw [requery_filter svc.id (matchesWhere (getWhere p.query))
      (omitKey data svc.id) db (omitKey_key_ne data svc.id) hids hinj]
  unfold Service.patchGeneric
  rw [if_pos hret]
  simp only [hgof, mapRes]
  rw [map_selectFields_none p.query svc.id _ hsel]
  rfl

/-- The postgres returning strategy at `id === null`, in canonical form:
the same update, with the affected rows read back from the update result. -/
theorem patchReturning_null_canonical (svc : Service) (db : DB) (data : Record)
    (p : Params) (hsel : p.query.select = none) :
    svc.patchReturning db none data p =
      .ok (.many ((db.filter (matchesWhere (getWhere p.query))).map
            (applyValues (omitKey data svc.id))),
           db.map (fun r => if matchesWhere (getWhere p.query) r
             then applyValues (omitKey data svc.id) r else r)) := by
  show Except.ok (Res.many (((db.filter (matchesWhere (getWhere p.query))).map
      (applyValues (omitKey data svc.id))).map (selectFields p.query svc.id)),
    db.map (fun r => if matchesWhere (getWhere p.query) r
      then applyValues (omitKey data svc.id) r else r)) = _
  rw [map_selectFields_none p.query svc.id _ hsel]

/-! ### Claim theorems -/

/-- C2 (code bug witness): the spec fixes the id field name at
construction and says it is used consistently to locate single records,
but the eager-loading path of `_get` filters on the literal field name
`id` (`Object.assign({id: id}, where)`, src/index.js line 75), not on the
configured `this.id`.  With `id: 'uuid'` configured and one record
`{uuid: 5}`, `get(5)` with an `include` rejects with NotFound while plain
`get(5)` finds the record. -/
theorem c2_eager_get_uses_literal_id_field :
    Service.get { id := "uuid" } [[("uuid", Value.vint 5)]] (Value.vint 5)
        { seqInclude := true } = .error .notFound ∧
    Service.get { id := "uuid" } [[("uuid", Value.vint 5)]] (Value.vint 5) {} =
      .ok [("uuid", Value.vint 5)] := by decide

/-- C3: `update` called with an array rejects with BadRequest, before any
read or write of the database (the result carries no database change and
is produced without consulting the database). -/
theorem c3_update_array_bad_request (svc : Service) (db : DB) (i : Value)
    (rs : List Record) (p : Params) :
    svc.update db i (.many rs) p = .error .badRequest := rfl

/-- C5 (counterexample): with `raw: false` configured, `create` returns
the inserted instance unchanged even though the query carries `$select`,
so the configured field-selection is not applied in every configuration. -/
theorem c5_create_raw_false_skips_select :
    Service.create { raw := false } [] (.one [("a", Value.vint 1), ("b", Value.vint 2)])
        { query := { select := some ["a"] } } =
      (.one [("a", Value.vint 1), ("b", Value.vint 2)],
       [[("a", Value.vint 1), ("b", Value.vint 2)]]) ∧
    selectFields { select := some ["a"] } "id" [("a", Value.vint 1), ("b", Value.vint 2)] ≠
      [("a", Value.vint 1), ("b", Value.vint 2)] := by decide

/-- C5 (amended): `create` inserts and returns the record(s); when the
effective raw option is true (the default) the configured field-selection
is applied, and when it is false the instances are returned without field
selection.  For an array input of length n the result is an array of
length n whose items are produced exactly as a single create of each item
would produce them. -/
theorem c5_create_select_by_raw (svc : Service) (db : DB) (rs : List Record)
    (r : Record) (p : Params) :
    (p.seqRaw.getD svc.raw = true →
      svc.create db (.many rs) p =
        (.many (rs.map (selectFields p.query svc.id)), db ++ rs) ∧
      svc.create db (.one r) p =
        (.one (selectFields p.query svc.id r), db ++ [r]) ∧
      (rs.map (selectFields p.query svc.id)).length = rs.length) ∧
    (p.seqRaw.getD svc.raw = false →
      svc.create db (.many rs) p = (.many rs, db ++ rs) ∧
      svc.create db (.one r) p = (.one r, db ++ [r])) := by
  constructor
  · intro h
    refine ⟨?_, ?_, List.length_map _ _⟩ <;> simp [Service.create, h]
  · intro h
    constructor <;> simp [Service.create, h]

/-- C5 (witness): a concrete instantiation of the amended create theorem
at the default raw configuration. -/
theorem c5_create_select_by_raw_witness :
    Service.create {} [] (.many [[("a", Value.vint 1), ("id", Value.vint 7)]])
        { query := { select := some ["a"] } } =
      (.many [[("a", Value.vint 1), ("id", Value.vint 7)]],
       [[("a", Value.vint 1), ("id", Value.vint 7)]]) :=
  ((c5_create_select_by_raw {} [] [[("a", Value.vint 1), ("id", Value.vint 7)]]
      [] { query := { select := some ["a"] } }).1 rfl).1

/-- C7: `find` applies pagination only when a truthy pagination default is
configured (from `params.paginate` when given, else the service
configuration): then it resolves with a page object whose limit is set and
whose data is no longer than that limit, with skip defaulting to 0 when
`$skip` is absent; otherwise it resolves with a bare array. -/
theorem c7_find_pagination (svc : Service) (db : DB) (p : Params) :
    ((p.paginate.getD svc.paginate).hasDefault = false →
      ∃ rs, svc.find db p = .many rs) ∧
    ((p.paginate.getD svc.paginate).hasDefault = true →
      ∃ pg, svc.find db p = .page pg ∧
        (∃ l, pg.limit = some l ∧ pg.data.length ≤ l) ∧
        (p.query.skip = none → pg.skip = 0)) := by
  constructor
  · intro h
    exact ⟨(svc._find db p (some (p.paginate.getD svc.paginate))).data,
      by simp [Service.find, h]⟩
  · intro h
    refine ⟨svc._find db p (some (p.paginate.getD svc.paginate)),
      by simp [Service.find, h], ?_, ?_⟩
    · obtain ⟨l, hl⟩ : ∃ l,
          getLimit p.query.limit (some (p.paginate.getD svc.paginate)) = some l := by
        simp [getLimit, h]
      exact ⟨l, hl, findAll_length_le db _ l hl⟩
    · intro hs
      simp [Service._find, hs]

/-- C7 (witness): a concrete paginated find resolves with a page of at
most the default limit, and a concrete unpaginated find with a bare
array. -/
theorem c7_find_pagination_witness :
    ∃ pg, Service.find { paginate := { default := some 2 } }
        [[("id", Value.vint 1)], [("id", Value.vint 2)], [("id", Value.vint 3)]] {} =
        .page pg ∧
      (∃ l, pg.limit = some l ∧ pg.data.length ≤ l) ∧ pg.skip = 0 := by
  obtain ⟨pg, h1, h2, h3⟩ := (c7_find_pagination { paginate := { default := some 2 } }
    [[("id", Value.vint 1)], [("id", Value.vint 2)], [("id", Value.vint 3)]] {}).2 (by decide)
  exact ⟨pg, h1, h2, h3 rfl⟩

/-- C4: for an existing record and non-array data, `update` persists a
record whose fields are exactly: `data`'s value for every key of `data`
present on the existing record, and null for every key present on the
existing record but absent from `data` (keys absent from the existing
record stay absent).  The uniqueness hypothesis pins the updated row. -/
theorem c4_update_nulls_missing_fields (svc : Service) (db : DB) (i : Value)
    (data : Record) (p : Params) (inst : Record)
    (hfind : Model.findById db svc.id i = some inst)
    (hu : ∀ r ∈ db, getField r svc.id = some i → r = inst) :
    ∃ newR,
      svc.update db i (.one data) p =
        .ok (.one (selectFields p.query svc.id newR),
             db.map (fun r => if getField r svc.id = some i then newR else r)) ∧
      ∀ k, getField newR k =
        if (getField inst k).isSome then some ((getField data k).getD Value.vnull)
        else none := by
  refine ⟨applyValues
      (inst.map (fun kv => (kv.1, (getField data kv.1).getD Value.vnull))) inst,
    ?_, ?_⟩
  · have hmap :
        db.map (fun r => if getField r svc.id = some i
          then applyValues
            (inst.map (fun kv => (kv.1, (getField data kv.1).getD Value.vnull))) r
          else r) =
        db.map (fun r => if getField r svc.id = some i
          then applyValues
            (inst.map (fun kv => (kv.1, (getField data kv.1).getD Value.vnull))) inst
          else r) := by
      apply List.map_congr_left
      intro r hr
      by_cases h : getField r svc.id = some i
      · rw [if_pos h, if_pos h, hu r hr h]
      · rw [if_neg h, if_neg h]
    simp only [Service.update, hfind]
    rw [hmap]
  · intro k
    rw [applyValues_mapped inst (fun x => (getField data x).getD Value.vnull) inst k]
    by_cases hany : inst.any (fun kv => decide (kv.1 = k)) = true
    · rw [if_pos hany, if_pos ?_]
      obtain ⟨kv, hkv, hdec⟩ := List.any_eq_true.mp hany
      show (((inst.find? (fun kv => decide (kv.1 = k)))).map Prod.snd).isSome = true
      rw [Option.isSome_map']
      exact List.find?_isSome.mpr ⟨kv, hkv, hdec⟩
    · rw [if_neg hany]
      have hnone : getField inst k = none := by
        unfold getField
        rw [List.find?_eq_none.mpr (fun kv hkv => by
          intro hc
          exact hany (List.any_eq_true.mpr ⟨kv, hkv, hc⟩))]
        rfl
      rw [hnone]
      rfl

/-- C4 (witness): a concrete update of `{id: 1, x: 2, y: 3}` with data
`{x: 9, z: 8}` persists `{id: null, x: 9, y: null}` -- data's values for
keys present on the record, null for the record's other keys, and no `z`. -/
theorem c4_update_nulls_missing_fields_witness :
    ∃ newR,
      Service.update {} [[("id", Value.vint 1), ("x", Value.vint 2), ("y", Value.vint 3)]]
          (Value.vint 1) (.one [("x", Value.vint 9), ("z", Value.vint 8)]) {} =
        .ok (.one (selectFields {} "id" newR),
          ([[("id", Value.vint 1), ("x", Value.vint 2), ("y", Value.vint 3)]] : DB).map
            (fun r => if getField r "id" = some (Value.vint 1) then newR else r)) ∧
      ∀ k, getField newR k =
        if (getField [("id", Value.vint 1), ("x", Value.vint 2), ("y", Value.vint 3)] k).isSome
        then some ((getField [("x", Value.vint 9), ("z", Value.vint 8)] k).getD Value.vnull)
        else none :=
  c4_update_nulls_missing_fields {}
    [[("id", Value.vint 1), ("x", Value.vint 2), ("y", Value.vint 3)]] (Value.vint 1)
    [("x", Value.vint 9), ("z", Value.vint 8)] {}
    [("id", Value.vint 1), ("x", Value.vint 2), ("y", Value.vint 3)]
    (by decide) (by decide)

/-- C1 (counterexample): with `$returning: false`, a single-target
`remove` of an id matching no record resolves with an empty array instead
of rejecting with NotFound, so the claim's "regardless of the $returning
parameter" fails. -/
theorem c1_remove_returning_false_empty_success :
    Service.remove {} [] (some (Value.vint 1)) { returning := some false } =
      .ok (.many [], []) := by decide

/-- C1 (amended): for every id matching no record, `get` (without
eager-loading include) and `update` reject with NotFound; single-target
`remove` and single-target `patch` reject with NotFound when `$returning`
is not false, but resolve with an empty array (and an unchanged database)
when `$returning === false`. -/
theorem c1_missing_id_not_found (svc : Service) (db : DB) (i : Value)
    (d data : Record) (p : Params)
    (hmiss : ∀ r ∈ db, getField r svc.id ≠ some i)
    (hinc : p.seqInclude = false) :
    svc.get db i p = .error .notFound ∧
    svc.update db i (.one d) p = .error .notFound ∧
    (p.returning ≠ some false →
      svc.remove db (some i) p = .error .notFound ∧
      svc.patch db (some i) data p = .error .notFound) ∧
    (p.returning = some false →
      svc.remove db (some i) p = .ok (.many [], db) ∧
      svc.patch db (some i) data p = .ok (.many [], db)) := by
  have hfind : Model.findById db svc.id i = none :=
    List.find?_eq_none.mpr (fun r hr => by simpa using hmiss r hr)
  have hw : ∀ r ∈ db, matchesWhere (svc.patchWhere (some i) p) r = false := by
    intro r hr
    cases hmw : matchesWhere (svc.patchWhere (some i) p) r with
    | false => rfl
    | true => exact absurd (patchWhere_some_elim svc p i r hmw) (hmiss r hr)
  have hnofilter : db.filter (matchesWhere (svc.patchWhere (some i) p)) = [] :=
    List.filter_eq_nil_iff.mpr (fun r hr => by simp [hw r hr])
  have hupd : (Model.update db (omitKey data svc.id) (svc.patchWhere (some i) p)).1 = db := by
    show db.map _ = db
    calc db.map (fun r => if matchesWhere (svc.patchWhere (some i) p) r
            then applyValues (omitKey data svc.id) r else r)
        = db.map id := List.map_congr_left (fun r hr => by simp [hw r hr])
      _ = db := List.map_id db
  have hdest : Model.destroy db (svc.patchWhere (some i) p) = db :=
    List.filter_eq_self.mpr (fun r hr => by simp [hw r hr])
  refine ⟨?_, ?_, fun hret => ⟨?_, ?_⟩, fun hret => ⟨?_, ?_⟩⟩
  · simp [Service.get, Service._get, hinc, hfind, Except.map]
  · simp [Service.update, hfind]
  · simp [Service.remove, hret, Service._getOrFind, Service._get, hinc, hfind,
      Except.map]
  · unfold Service.patch
    by_cases hd : svc.dialect = "postgres"
    · rw [if_pos ⟨hd, hret⟩]
      unfold Service.patchReturning
      simp [Model.update, hnofilter]
    · rw [if_neg (fun hc => hd hc.1)]
      unfold Service.patchGeneric
      simp [hret, Service._getOrFind, Service._get, hinc, hupd, hfind, Except.map]
  · simp [Service.remove, hret, hdest]
  · have hnc : ¬(svc.dialect = "postgres" ∧ p.returning ≠ some false) :=
      fun hc => hc.2 hret
    unfold Service.patch
    rw [if_neg hnc]
    unfold Service.patchGeneric
    simp [hret, hupd]

/-- C1 (witness): at a concrete database holding only id 2, get of id 1
rejects with NotFound and single-target remove of id 1 rejects with
NotFound under the default `$returning`. -/
theorem c1_missing_id_not_found_witness :
    Service.get {} [[("id", Value.vint 2)]] (Value.vint 1) {} = .error .notFound ∧
    Service.remove {} [[("id", Value.vint 2)]] (some (Value.vint 1)) {} =
      .error .notFound := by
  have h := c1_missing_id_not_found {} [[("id", Value.vint 2)]] (Value.vint 1)
    [] [] {} (by decide) rfl
  exact ⟨h.1, (h.2.2.1 (by decide)).1⟩

/-- C6 (counterexample): `patch(null, ...)` with `$returning: false`
updates the matching record but resolves with an empty array, not the set
of updated records. -/
theorem c6_patch_null_returning_false_empty :
    Service.patch {} [[("id", Value.vint 1), ("x", Value.vint 1)]] none
        [("x", Value.vint 2)] { returning := some false } =
      .ok (.many [], [[("id", Value.vint 1), ("x", Value.vint 2)]]) := by decide

/-- C6 (amended): `patch` with `id === null` updates every record
matching the query conditions (under a control-key-free query with
present, injective id values); when `$returning` is not false it resolves
with exactly the set of updated records, and when `$returning === false`
it resolves with an empty array. -/
theorem c6_patch_null_updates_matching (svc : Service) (db : DB) (data : Record)
    (p : Params)
    (hl : p.query.limit = none) (hs : p.query.skip = none)
    (hsel : p.query.select = none)
    (hids : ∀ r ∈ db, (getField r svc.id).isSome = true)
    (hinj : ∀ r ∈ db, ∀ s ∈ db,
      getField r svc.id = getField s svc.id → r = s) :
    (p.returning ≠ some false →
      svc.patch db none data p =
        .ok (.many ((db.filter (matchesWhere (getWhere p.query))).map
              (applyValues (omitKey data svc.id))),
             db.map (fun r => if matchesWhere (getWhere p.query) r
               then applyValues (omitKey data svc.id) r else r))) ∧
    (p.returning = some false →
      svc.patch db none data p =
        .ok (.many [],
             db.map (fun r => if matchesWhere (getWhere p.query) r
               then applyValues (omitKey data svc.id) r else r))) := by
  constructor
  · intro hret
    unfold Service.patch
    by_cases hd : svc.dialect = "postgres"
    · rw [if_pos ⟨hd, hret⟩]
      exact patchReturning_null_canonical svc db data p hsel
    · rw [if_neg (fun hc => hd hc.1)]
      exact patchGeneric_null_canonical svc db data p hret hl hs hsel hids hinj
  · intro hret
    unfold Service.patch
    rw [if_neg (fun hc => hc.2 hret)]
    unfold Service.patchGeneric
    simp [hret]
    rfl

/-- C6 (witness): a concrete all-matching patch at two records resolving
with both updated records. -/
theorem c6_patch_null_updates_matching_witness :
    Service.patch {} [[("id", Value.vint 1), ("x", Value.vint 1)],
        [("id", Value.vint 2), ("x", Value.vint 1)]] none [("x", Value.vint 9)]
        { query := { conds := [("x", Cond.eqv (Value.vint 1))] } } =
      .ok (.many ((([[("id", Value.vint 1), ("x", Value.vint 1)],
              [("id", Value.vint 2), ("x", Value.vint 1)]] : DB).filter
            (matchesWhere (getWhere { conds := [("x", Cond.eqv (Value.vint 1))] }))).map
            (applyValues (omitKey [("x", Value.vint 9)] "id"))),
           ([[("id", Value.vint 1), ("x", Value.vint 1)],
              [("id", Value.vint 2), ("x", Value.vint 1)]] : DB).map
            (fun r => if matchesWhere
                (getWhere { conds := [("x", Cond.eqv (Value.vint 1))] }) r
              then applyValues (omitKey [("x", Value.vint 9)] "id") r else r)) :=
  (c6_patch_null_updates_matching {}
    [[("id", Value.vint 1), ("x", Value.vint 1)],
      [("id", Value.vint 2), ("x", Value.vint 1)]]
    [("x", Value.vint 9)]
    { query := { conds := [("x", Cond.eqv (Value.vint 1))] } }
    rfl rfl rfl (by decide) (by decide)).1 (by decide)

/-- C8 (counterexample): for a non-null id whose record exists but fails
the extra query filter, the returning strategy rejects with NotFound while
the generic strategy resolves with the unmodified record: the two
strategies do not produce the same result for the same database state. -/
theorem c8_strategies_diverge :
    Service.patchReturning {} [[("id", Value.vint 1), ("x", Value.vint 2)]]
        (some (Value.vint 1)) [("y", Value.vint 7)]
        { query := { conds := [("x", Cond.eqv (Value.vint 99))] } } =
      .error .notFound ∧
    Service.patchGeneric {} [[("id", Value.vint 1), ("x", Value.vint 2)]]
        (some (Value.vint 1)) [("y", Value.vint 7)]
        { query := { conds := [("x", Cond.eqv (Value.vint 99))] } } =
      .ok (.one [("id", Value.vint 1), ("x", Value.vint 2)],
           [[("id", Value.vint 1), ("x", Value.vint 2)]]) := by decide

/-- C8 (amended): `patch` selects between exactly the two strategies --
the native returning update when the dialect is postgres and `$returning`
is not false, the read-update-reread strategy otherwise -- and for
`id === null` (control-key-free query, present and injective ids) the two
strategies produce the same result on the same database state.  For a
non-null id they can diverge when the record fails the query filter. -/
theorem c8_patch_strategy_selection (svc : Service) (db : DB) (data : Record)
    (p : Params) (hret : p.returning ≠ some false)
    (hl : p.query.limit = none) (hs : p.query.skip = none)
    (hsel : p.query.select = none)
    (hids : ∀ r ∈ db, (getField r svc.id).isSome = true)
    (hinj : ∀ r ∈ db, ∀ s ∈ db,
      getField r svc.id = getField s svc.id → r = s) :
    (∀ (i : Option Value) (d : Record),
      svc.patch db i d p =
        if svc.dialect = "postgres" ∧ p.returning ≠ some false
        then svc.patchReturning db i d p
        else svc.patchGeneric db i d p) ∧
    svc.patchReturning db none data p = svc.patchGeneric db none data p := by
  refine ⟨fun i d => rfl, ?_⟩
  rw [patchReturning_null_canonical svc db data p hsel,
    patchGeneric_null_canonical svc db data p hret hl hs hsel hids hinj]

/-- C8 (witness): the two strategies agree on a concrete
`patch(null, ...)` call. -/
theorem c8_patch_strategy_selection_witness :
    Service.patchReturning {} [[("id", Value.vint 1), ("x", Value.vint 1)]]
        none [("x", Value.vint 9)]
        { query := { conds := [("x", Cond.eqv (Value.vint 1))] } } =
      Service.patchGeneric {} [[("id", Value.vint 1), ("x", Value.vint 1)]]
        none [("x", Value.vint 9)]
        { query := { conds := [("x", Cond.eqv (Value.vint 1))] } } :=
  (c8_patch_strategy_selection {} [[("id", Value.vint 1), ("x", Value.vint 1)]]
    [("x", Value.vint 9)] { query := { conds := [("x", Cond.eqv (Value.vint 1))] } }
    (by decide) rfl rfl rfl (by decide) (by decide)).2

/-- C9 (counterexample): `remove` with a non-null id whose record exists
but fails the query filter deletes nothing (the database is unchanged)
while still resolving with the record's data, so "deletes exactly one
record when id is non-null" fails, as does "resolves with the data of the
removed record(s)". -/
theorem c9_remove_filtered_out_deletes_nothing :
    Service.remove {} [[("id", Value.vint 1), ("x", Value.vint 2)]]
        (some (Value.vint 1))
        { query := { conds := [("x", Cond.eqv (Value.vint 3))] } } =
      .ok (.one [("id", Value.vint 1), ("x", Value.vint 2)],
           [[("id", Value.vint 1), ("x", Value.vint 2)]]) := by decide

/-- C9 (amended): `remove(null)` deletes every record matching the filter
and, when `$returning` is not false, resolves with exactly the pre-deletion
matching records (control-key-free query).  `remove(id)` deletes the
records matching the filter conjoined with the id -- at most one under
distinct records and injective ids -- and when `$returning` is not false it
resolves with the record fetched by id alone (NotFound if absent), even if
the filter excluded it from deletion.  With `$returning === false`, both
forms still delete the same records but resolve with an empty array. -/
theorem c9_remove_deletes_matching (svc : Service) (db : DB) (p : Params) (v : Value)
    (hinc : p.seqInclude = false)
    (hl : p.query.limit = none) (hs : p.query.skip = none)
    (hsel : p.query.select = none) :
    (p.returning ≠ some false →
      (svc.remove db none p =
        .ok (.many (db.filter (matchesWhere (getWhere p.query))),
             db.filter (fun r => !matchesWhere (getWhere p.query) r))) ∧
      (Model.findById db svc.id v = none →
        svc.remove db (some v) p = .error .notFound) ∧
      (∀ inst, Model.findById db svc.id v = some inst →
        svc.remove db (some v) p =
          .ok (.one inst,
               db.filter (fun r =>
                 !matchesWhere (setCond (getWhere p.query) svc.id (.eqv v)) r)))) ∧
    (p.returning = some false →
      (svc.remove db none p =
        .ok (.many [],
             db.filter (fun r => !matchesWhere (getWhere p.query) r))) ∧
      (svc.remove db (some v) p =
        .ok (.many [],
             db.filter (fun r =>
               !matchesWhere (setCond (getWhere p.query) svc.id (.eqv v)) r)))) ∧
    (db.Nodup →
      (∀ r ∈ db, ∀ s ∈ db, getField r svc.id = getField s svc.id → r = s) →
      db.countP (matchesWhere (setCond (getWhere p.query) svc.id (.eqv v))) ≤ 1) := by
  refine ⟨fun hret => ⟨?_, ?_, ?_⟩, fun hret => ⟨?_, ?_⟩, fun hnd hinj => ?_⟩
  · have hgof : svc._getOrFind db none p =
        .ok (.many (db.filter (matchesWhere (getWhere p.query)))) := by
      show Except.ok (Res.many ((svc._find db p none).data)) = _
      rw [_find_plain_data svc db p hl hs hsel]
    unfold Service.remove
    rw [if_pos hret]
    simp only [hgof, mapRes]
    rw [map_selectFields_none p.query svc.id _ hsel]
    rfl
  · intro hf
    simp [Service.remove, hret, Service._getOrFind, Service._get, hinc, hf,
      Except.map]
  · intro inst hf
    simp [Service.remove, hret, Service._getOrFind, Service._get, hinc, hf,
      Except.map, selectFields_none _ _ _ hsel, mapRes, Model.destroy,
      Service.patchWhere]
  · simp [Service.remove, hret, Model.destroy, Service.patchWhere]
  · simp [Service.remove, hret, Model.destroy, Service.patchWhere]
  · rw [List.countP_eq_length_filter]
    cases hfil : db.filter (matchesWhere (setCond (getWhere p.query) svc.id (.eqv v))) with
    | nil => simp
    | cons a t =>
      cases t with
      | nil => simp
      | cons b t2 =>
        exfalso
        have ha : a ∈ db.filter (matchesWhere (setCond (getWhere p.query) svc.id (.eqv v))) := by
          rw [hfil]
          exact List.mem_cons_self _ _
        have hb : b ∈ db.filter (matchesWhere (setCond (getWhere p.query) svc.id (.eqv v))) := by
          rw [hfil]
          exact List.mem_cons_of_mem _ (List.mem_cons_self _ _)
        have hav : getField a svc.id = some v := by
          have := matchesWhere_setCond_elim (getWhere p.query) svc.id (.eqv v) a
            (List.mem_filter.mp ha).2
          simpa [condMatches] using this
        have hbv : getField b svc.id = some v := by
          have := matchesWhere_setCond_elim (getWhere p.query) svc.id (.eqv v) b
            (List.mem_filter.mp hb).2
          simpa [condMatches] using this
        have hab : a = b := hinj a (List.mem_filter.mp ha).1
          b (List.mem_filter.mp hb).1 (by rw [hav, hbv])
        have hndf := hnd.filter
          (matchesWhere (setCond (getWhere p.query) svc.id (.eqv v)))
        rw [hfil] at hndf
        exact (List.nodup_cons.mp hndf).1 (hab ▸ List.mem_cons_self b t2)

/-- C9 (witness): a concrete filtered multi-remove deletes exactly the
matching record and resolves with its pre-deletion data. -/
theorem c9_remove_deletes_matching_witness :
    Service.remove {} [[("id", Value.vint 1), ("x", Value.vint 1)],
        [("id", Value.vint 2), ("x", Value.vint 5)]] none
        { query := { conds := [("x", Cond.eqv (Value.vint 1))] } } =
      .ok (.many (([[("id", Value.vint 1), ("x", Value.vint 1)],
             [("id", Value.vint 2), ("x", Value.vint 5)]] : DB).filter
            (matchesWhere (getWhere { conds := [("x", Cond.eqv (Value.vint 1))] }))),
           ([[("id", Value.vint 1), ("x", Value.vint 1)],
             [("id", Value.vint 2), ("x", Value.vint 5)]] : DB).filter
            (fun r => !matchesWhere
              (getWhere { conds := [("x", Cond.eqv (Value.vint 1))] }) r)) :=
  ((c9_remove_deletes_matching {}
    [[("id", Value.vint 1), ("x", Value.vint 1)],
      [("id", Value.vint 2), ("x", Value.vint 5)]]
    { query := { conds := [("x", Cond.eqv (Value.vint 1))] } }
    (Value.vint 1) rfl rfl rfl rfl).1 (by decide)).1

/-- The update of the generic and returning patch strategies never changes
the id column: the values object has the id key stripped. -/
theorem update_omitKey_map_id (db : DB) (data : Record) (idF : String) (w : Where) :
    ((Model.update db (omitKey data idF) w).1).map (fun r => getField r idF)
      = db.map (fun r => getField r idF) := by
  show (db.map _).map _ = _
  rw [List.map_map]
  apply List.map_congr_left
  intro r hr
  by_cases hw : matchesWhere w r
  · simp [hw, getField_applyValues_omitKey]
  · simp [hw]

/-- C10: whenever `patch` resolves, the stored value of the configured id
field of every row is unchanged: the id field is stripped from the data
before the update on both the returning path and the generic path. -/
theorem c10_patch_preserves_id (svc : Service) (db : DB) (i : Option Value)
    (data : Record) (p : Params) (res : Res) (db2 : DB)
    (h : svc.patch db i data p = .ok (res, db2)) :
    db2.map (fun r => getField r svc.id) = db.map (fun r => getField r svc.id) := by
  unfold Service.patch at h
  split at h
  · simp only [Service.patchReturning] at h
    split at h
    · simp only [Except.ok.injEq, Prod.mk.injEq] at h
      rw [← h.2]
      exact update_omitKey_map_id db data svc.id _
    · split at h
      · exact Except.noConfusion h
      · simp only [Except.ok.injEq, Prod.mk.injEq] at h
        rw [← h.2]
        exact update_omitKey_map_id db data svc.id _
  · simp only [Service.patchGeneric] at h
    split at h
    · split at h
      · exact Except.noConfusion h
      · simp only [Except.ok.injEq, Prod.mk.injEq] at h
        rw [← h.2]
        exact update_omitKey_map_id db data svc.id _
    · simp only [Except.ok.injEq, Prod.mk.injEq] at h
      rw [← h.2]
      exact update_omitKey_map_id db data svc.id _

/-- C10 (witness): a concrete patch whose data tries to set the id leaves
the id column unchanged. -/
theorem c10_patch_preserves_id_witness :
    ([[("id", Value.vint 1), ("x", Value.vint 5)]] : DB).map (fun r => getField r "id")
      = ([[("id", Value.vint 1), ("x", Value.vint 0)]] : DB).map (fun r => getField r "id") :=
  c10_patch_preserves_id {} [[("id", Value.vint 1), ("x", Value.vint 0)]]
    (some (Value.vint 1)) [("x", Value.vint 5), ("id", Value.vint 9)] {}
    (.one [("id", Value.vint 1), ("x", Value.vint 5)])
    [[("id", Value.vint 1), ("x", Value.vint 5)]] (by decide)

end FeathersSequelize
